import Mathlib

/- Shallow embedding of the stillo reducer core (reducer source file:
`combineOtherReducers`, `createReducer`, `getInitialState`), together with
theorems about its observable behaviour.  JS exceptions are modelled with
`Except`, the dynamic JS value domain with an inductive type, and JS objects
with association lists in insertion order. -/

/-- Values of the JS dynamic domain as used by the reducer core.  Composite
state objects are modelled separately as association lists (`JSObj`); the
values stored under state keys are primitives here, which suffices for the
observable behaviour of the reducer core.  `undefined` is a first-class
value, as in JS.  Numbers are modelled as integers: the reducer core does no
arithmetic of its own, so floats, NaN and negative zero play no role. -/
inductive JSVal where
  | undefined
  | null
  | bool (b : Bool)
  | num (n : Int)
  | str (s : String)
deriving DecidableEq

/-- A JS object: fields in insertion order, with unique keys as JS objects
have.  Reading an absent key yields `JSVal.undefined`, as in JS. -/
abbrev JSObj := List (String × JSVal)

/-- JS truthiness of a value. -/
def truthy : JSVal → Bool
  | .undefined => false
  | .null => false
  | .bool b => b
  | .num n => decide (n ≠ 0)
  | .str s => decide (s ≠ "")

/-- The string produced by the JS `typeof` operator on a primitive value. -/
def typeofName : JSVal → String
  | .undefined => "undefined"
  | .null => "object"
  | .bool _ => "boolean"
  | .num _ => "number"
  | .str _ => "string"

/-- Modelled from the spec: `is` (imported from diviso-shared, whose source is
not among the provided files) is the single-level same-value-zero equality
check used wherever the code decides "did this change".  On this value domain
(no floats, hence no NaN and no negative zero) it coincides with decidable
equality. -/
def is (a b : JSVal) : Bool := decide (a = b)

/-- The same equality check applied to whole state objects.  `Object.is` on
two objects is reference equality; in this pure embedding object identity is
modelled by structural equality of the association lists (the code never
mutates a state object in place, so a preserved reference is a preserved
value). -/
def isO (a b : JSObj) : Bool := decide (a = b)

/-- Property read `o[k]`: the first field named `k`, or `undefined`. -/
def getProp : JSObj → String → JSVal
  | [], _ => .undefined
  | (k2, v) :: rest, k => if k2 = k then v else getProp rest k

/-- Property assignment `o[k] = v` (on a copy): replaces the value of an
existing key in place, keeping its position, or appends a new key at the
end — JS object-key insertion-order semantics. -/
def setProp : JSObj → String → JSVal → JSObj
  | [], k, v => [(k, v)]
  | (k2, v2) :: rest, k, v =>
      if k2 = k then (k2, v) :: rest else (k2, v2) :: setProp rest k v

/-- Own-property test `Object.hasOwn(o, k)`. -/
def hasOwn : JSObj → String → Bool
  | [], _ => false
  | (k2, _) :: rest, k => if k2 = k then true else hasOwn rest k

/-- Object spread of `b` into `a`: each field of `b` assigned, in order, onto
a copy of `a`. -/
def spreadInto (a b : JSObj) : JSObj := b.foldl (fun acc p => setProp acc p.1 p.2) a

/-- An action object.  Modelled from the spec: the actions module is not
among the provided files; the spec describes an action as an immutable
descriptor optionally carrying a conventional `type` tag and optionally the
part-target tag `$$part`.  Type tags are strings, as in the hosting
ecosystem; an absent tag is `none`. -/
structure JSAction where
  type : Option String := none
  «$$part» : Option String := none
deriving DecidableEq

/-- The empty action object `\x7b\x7d` passed by `getInitialState`. -/
def emptyAction : JSAction := {}

/-- Modelled from the spec: `isPartAction` (from the validate module, not
among the provided files) treats any action carrying the `$$part` tag as a
part action, and any action lacking it as a non-part action. -/
def isPartAction (a : JSAction) : Bool := a.«$$part».isSome

/-- JS truthiness of an optional string (an absent or empty string is falsy). -/
def truthyStr : Option String → Bool
  | none => false
  | some s => decide (s ≠ "")

/-- String interpolation of the `$$part` tag into a template literal:
an absent tag prints as "undefined". -/
def partIdString (a : JSAction) : String :=
  match a.«$$part» with
  | some s => s
  | none => "undefined"

/-- The three fatal error kinds thrown by the reducer core. -/
inductive JSError where
  | undefinedResult (key : String) (actionType : Option String)
  | unregisteredPart (partId : String)
  | invalidOtherReducer (receivedType : String)
deriving DecidableEq

/-- The error messages, as built by the source's template literals. -/
def JSError.message : JSError → String
  | .undefinedResult key actionType =>
      "When called with an action of type " ++
        ((if truthyStr actionType then "\"" ++ (actionType.getD "" ++ "\"") else "(unknown type)") ++
          (", the part reducer for key \"" ++
            (key ++
              ("\" returned undefined. " ++
                ("To ignore an action, you must explicitly return the previous state. " ++
                  "If you want this reducer to hold no value, you can return null instead of undefined.")))))
  | .unregisteredPart partId =>
      "Part with ID `" ++
        (partId ++
          ("` was not provided to the partitioner for inclusion in state. " ++
            "Please add it to the list of parts provided to `createPartitioner`."))
  | .invalidOtherReducer receivedType =>
      "`otherReducer` provided was expected to be a function or a map of reducers; received " ++
        receivedType

/-- `msg` mentions `sub` verbatim. -/
def containsStr (msg sub : String) : Prop := ∃ p q, msg = p ++ (sub ++ q)

/-- A per-key reducer inside a reducers map. -/
abbrev KeyReducer := JSVal → JSAction → JSVal

/-- An entry of a reducers map: either a reducer function or some other
(non-function) value, which the combinator drops from the effective set. -/
inductive MapEntry where
  | fn (r : KeyReducer)
  | nonFn (v : JSVal)

/-- A reducers map: JS object whose values may or may not be functions. -/
abbrev ReducersMap := List (String × MapEntry)

/-- The effective reducer set precomputed by `combineOtherReducers`:
the function-valued entries, in key order (`finalReducers` /
`finalReducerKeys` in the source). -/
def effectivePairs (m : ReducersMap) : List (String × KeyReducer) :=
  m.filterMap (fun p => match p.2 with | .fn r => some (p.1, r) | .nonFn _ => none)

/-- The effective (function-valued) key set of a reducers map. -/
def effectiveKeys (m : ReducersMap) : List String := (effectivePairs m).map Prod.fst

/-- The body of the loop inside the reducer returned by
`combineOtherReducers`: walks the effective pairs in order; for each key it
reads the previous value, applies the key's reducer, throws if the result is
`undefined`, and otherwise records the new value and whether anything
changed.  The boolean accumulates `hasChanged` (a disjunction, so the
accumulation direction is irrelevant). -/
def combineLoop (pairs : List (String × KeyReducer)) (st : JSObj) (a : JSAction) :
    Except JSError (JSObj × Bool) :=
  match pairs with
  | [] => .ok ([], false)
  | (k, r) :: rest =>
      let prev := getProp st k
      let next := r prev a
      if next = .undefined then .error (.undefinedResult k a.type)
      else
        match combineLoop rest st a with
        | .error e => .error e
        | .ok (tail, changed) => .ok ((k, next) :: tail, (!is prev next) || changed)

/-- `combineOtherReducers`: drops non-function entries, then returns a
reducer which applies every effective key's reducer to that key's slice,
throws on an `undefined` result, and returns the original state object when
no key changed.  An `undefined` input state defaults to the empty object. -/
def combineOtherReducers (reducers : ReducersMap) :
    Option JSObj → JSAction → Except JSError JSObj :=
  let finalPairs := effectivePairs reducers
  fun state action =>
    let st := state.getD []
    match combineLoop finalPairs st action with
    | .error e => .error e
    | .ok (nextState, hasChanged) => .ok (if hasChanged then nextState else st)

/-- A stateful part descriptor, external to this module: unique name `n`,
owner key `o`, reducer `r`. -/
structure StatefulPart where
  n : String
  o : String
  r : JSVal → JSAction → JSVal

/-- The part registry: part target identifier to part descriptor. -/
abbrev PartMap := List (String × StatefulPart)

/-- Registry lookup `partMap[id]`. -/
def lookupPart (pm : PartMap) (id : String) : Option StatefulPart :=
  match pm with
  | [] => none
  | (k, p) :: rest => if k = id then some p else lookupPart rest id

/-- `partsReducer` (the inner function in `createReducer`): looks the
action's `$$part` target up in the registry, throws a reference error naming
the target when it is absent, and otherwise replaces the owner key's value
only when the part's reducer changed it. -/
def partsReducer (pm : PartMap) (st : JSObj) (a : JSAction) : Except JSError JSObj :=
  match (match a.«$$part» with | some id => lookupPart pm id | none => none) with
  | none => .error (.unregisteredPart (partIdString a))
  | some part =>
      let prev := getProp st part.o
      let next := part.r prev a
      if is prev next then .ok st else .ok (setProp st part.o next)

/-- `getInitialState`: invokes each part's reducer once with
`(undefined, \x7b\x7d)` and assigns the result under the part's *name* key
`n`, in list order. -/
def getInitialState (parts : List StatefulPart) : JSObj :=
  parts.foldl (fun acc p => setProp acc p.n (p.r .undefined emptyAction)) []

/-- The `otherReducer` construction argument: a single reducer function, a
reducers map, or some other (primitive) value.  The sum carries the
distinction that the validate module's `isReducersMap` (not among the
provided files) draws at runtime. -/
inductive OtherReducerArg where
  | fn (f : Option JSObj → JSAction → JSObj)
  | rmap (m : ReducersMap)
  | prim (v : JSVal)

/-- JS truthiness of the `otherReducer` argument: functions and objects are
truthy; a primitive has its value's truthiness. -/
def truthyArg : OtherReducerArg → Bool
  | .fn _ => true
  | .rmap _ => true
  | .prim v => truthy v

/-- Modelled from the spec: `isReducersMap` (from the validate module, not
among the provided files) recognises a key-to-reducer mapping as opposed to
a single reducer function; in this embedding the distinction is carried by
the `OtherReducerArg` sum. -/
def isReducersMap : OtherReducerArg → Bool
  | .rmap _ => true
  | _ => false

/-- Does the argument denote a single reducer function? -/
def isFnArg : OtherReducerArg → Bool
  | .fn _ => true
  | _ => false

/-- The `additionalReducer` of `createReducer`: a reducers map is first
combined; a function is used as is; any other value is not a function, which
`createReducer` rejects (the `.prim` branch is unreachable behind that
check and is modelled as the construction error itself). -/
def additionalReducerOf : OtherReducerArg → Option JSObj → JSAction → Except JSError JSObj
  | .fn f => fun s a => .ok (f s a)
  | .rmap m => combineOtherReducers m
  | .prim v => fun _ _ => .error (.invalidOtherReducer (typeofName v))

/-- The `createReducer` configuration object. -/
structure CreateReducerConfig where
  otherReducer : Option OtherReducerArg := none
  partMap : PartMap
  parts : List StatefulPart

/-- The reducer returned by `createReducer` when no (truthy) other reducer
is supplied: the input state defaults to the initial state (the default
parameter is evaluated per call), part actions dispatch through the
registry, any other action is a no-op. -/
def partsOnlyReducer (pm : PartMap) (parts : List StatefulPart) :
    Option JSObj → JSAction → Except JSError JSObj :=
  fun state action =>
    let s := state.getD (getInitialState parts)
    if isPartAction action then partsReducer pm s action else .ok s

/-- The reducer returned by `createReducer` when an other reducer is in
play: an `undefined` state triggers initialization (parts first, then the
other reducer's output spread over it); a part action dispatches through the
registry; any other action runs the other reducer over the full state and
keeps the original object when nothing changed. -/
def fullReducer (pm : PartMap) (parts : List StatefulPart)
    (additional : Option JSObj → JSAction → Except JSError JSObj) :
    Option JSObj → JSAction → Except JSError JSObj :=
  fun state action =>
    match state with
    | none =>
        match additional none action with
        | .error e => .error e
        | .ok other => .ok (spreadInto (getInitialState parts) other)
    | some s =>
        if isPartAction action then partsReducer pm s action
        else
          match additional (some s) action with
          | .error e => .error e
          | .ok nextOtherState =>
              .ok (if isO s nextOtherState then s else spreadInto s nextOtherState)

/-- `createReducer`: a falsy (or absent) `otherReducer` yields the
parts-only reducer; a truthy one is combined when it is a reducers map and
must then be a function, otherwise construction throws a reference error
naming the received type. -/
def createReducer (config : CreateReducerConfig) :
    Except JSError (Option JSObj → JSAction → Except JSError JSObj) :=
  match config.otherReducer with
  | none => .ok (partsOnlyReducer config.partMap config.parts)
  | some arg =>
      if truthyArg arg then
        match arg with
        | .prim v => .error (.invalidOtherReducer (typeofName v))
        | _ => .ok (fullReducer config.partMap config.parts (additionalReducerOf arg))
      else .ok (partsOnlyReducer config.partMap config.parts)

/-- Build the reducer from a configuration and apply it (construction errors
propagate). -/
def runReducer (config : CreateReducerConfig) (s : Option JSObj) (a : JSAction) :
    Except JSError JSObj :=
  match createReducer config with
  | .error e => .error e
  | .ok red => red s a

/-- Fold an ordered action sequence through the configured reducer,
threading the state and stopping at the first thrown error. -/
def replayCfg (config : CreateReducerConfig) :
    Option JSObj → List JSAction → Except JSError (Option JSObj)
  | s, [] => .ok s
  | s, a :: rest =>
      match runReducer config s a with
      | .error e => .error e
      | .ok s2 => replayCfg config (some s2) rest

/-- Is the computation a normal (non-throwing) result? -/
def isOkE {ε α : Type} : Except ε α → Bool
  | .ok _ => true
  | .error _ => false

/-- Did the computation throw? -/
def isErrE {ε α : Type} (e : Except ε α) : Bool := !isOkE e

/-- The next-state object the combinator's loop builds over a pair list. -/
def loopNext (pairs : List (String × KeyReducer)) (st : JSObj) (a : JSAction) : JSObj :=
  pairs.map (fun p => (p.1, p.2 (getProp st p.1) a))

/-- The `hasChanged` flag the combinator's loop computes over a pair list. -/
def loopChanged (pairs : List (String × KeyReducer)) (st : JSObj) (a : JSAction) : Bool :=
  pairs.any (fun p => !is (getProp st p.1) (p.2 (getProp st p.1) a))

/-- The result object of the combined reducer in the changed case: exactly
the effective keys, each bound to its reducer's output. -/
def nextObjOf (m : ReducersMap) (st : JSObj) (a : JSAction) : JSObj :=
  loopNext (effectivePairs m) st a

/-- "Every other-reducer invoked on `(st, a)` left its slice unchanged":
trivial when no (truthy, function-like) other reducer is in play. -/
def otherUnchanged (config : CreateReducerConfig) (st : JSObj) (a : JSAction) : Prop :=
  match config.otherReducer with
  | some (.fn f) => f (some st) a = st
  | some (.rmap m) => combineOtherReducers m (some st) a = .ok st
  | _ => True

/-- The last part in the list whose name is `k` (the one whose value wins on
a key collision in `getInitialState`). -/
def lastPartNamed (parts : List StatefulPart) (k : String) : Option StatefulPart :=
  (parts.filter (fun p => decide (p.n = k))).getLast?

/- Concrete artifacts used by witnesses and counterexamples. -/

/-- A per-key reducer that always returns `undefined`. -/
def undefKeyRed : KeyReducer := fun _ _ => .undefined

/-- A per-key reducer that echoes its previous value. -/
def echoKeyRed : KeyReducer := fun prev _ => prev

/-- The spec's example counter part: state starts at 0 and increments on its
own part action. -/
def counterPart : StatefulPart where
  n := "counter"
  o := "counter"
  r := fun prev a =>
    let s := match prev with | .undefined => .num 0 | v => v
    if a.«$$part» = some "counter" then
      match s with | .num n2 => .num (n2 + 1) | v => v
    else s

/-- Configuration with the counter part only. -/
def cfgCounter : CreateReducerConfig :=
  { otherReducer := none, partMap := [("counter", counterPart)], parts := [counterPart] }

/-- A part whose name key and owner key differ. -/
def partAB : StatefulPart where
  n := "a"
  o := "b"
  r := fun _ _ => .num 0

/-- Configuration with the name/owner-splitting part only. -/
def cfgAB : CreateReducerConfig :=
  { otherReducer := none, partMap := [("a", partAB)], parts := [partAB] }

/-- Configuration with no parts and no other reducer. -/
def cfgEmpty : CreateReducerConfig := { otherReducer := none, partMap := [], parts := [] }

/-- The parts-only reducer of the empty configuration. -/
def redEmpty : Option JSObj → JSAction → Except JSError JSObj := partsOnlyReducer [] []

/-- The parts-only reducer of the counter configuration. -/
def redCounter : Option JSObj → JSAction → Except JSError JSObj :=
  partsOnlyReducer [("counter", counterPart)] [counterPart]

/-- A part action targeting the counter part. -/
def counterAct : JSAction := { «$$part» := some "counter" }

/-- A plain action with a type tag. -/
def noopAct : JSAction := { type := some "noop" }

/-- A per-key reducer that ignores its inputs and returns `true`. -/
def constKeyRed : KeyReducer := fun _ _ => .bool true

/-- A part whose reducer echoes its previous state. -/
def echoPart : StatefulPart where
  n := "e"
  o := "e"
  r := fun prev _ => prev

/-- Configuration with the echo part only. -/
def cfgEcho : CreateReducerConfig :=
  { otherReducer := none, partMap := [("e", echoPart)], parts := [echoPart] }

/-- The parts-only reducer of the echo configuration. -/
def redEcho : Option JSObj → JSAction → Except JSError JSObj :=
  partsOnlyReducer [("e", echoPart)] [echoPart]

/-- A single other-reducer function with constant output. -/
def constOtherFn : Option JSObj → JSAction → JSObj := fun _ _ => [("z", .num 2)]

/-- Configuration whose other reducer is the constant function. -/
def cfgFn : CreateReducerConfig :=
  { otherReducer := some (.fn constOtherFn), partMap := [], parts := [] }

/-- The full reducer of the constant-function configuration. -/
def redFn : Option JSObj → JSAction → Except JSError JSObj :=
  fullReducer [] [] (additionalReducerOf (.fn constOtherFn))

/- Shared lemmas about the embedded operations. -/

theorem getProp_setProp_self (o : JSObj) (k : String) (v : JSVal) :
    getProp (setProp o k v) k = v := by
  induction o with
  | nil => simp [setProp, getProp]
  | cons hd tl ih =>
      obtain ⟨k2, v2⟩ := hd
      by_cases h : k2 = k
      · simp [setProp, getProp, h]
      · simp [setProp, getProp, h, ih]

theorem getProp_setProp_ne (o : JSObj) (j k : String) (v : JSVal) (h : j ≠ k) :
    getProp (setProp o j v) k = getProp o k := by
  induction o with
  | nil => simp [setProp, getProp, h]
  | cons hd tl ih =>
      obtain ⟨k2, v2⟩ := hd
      by_cases h2 : k2 = j
      · subst h2
        have hk : k2 ≠ k := h
        simp [setProp, getProp, hk]
      · by_cases h3 : k2 = k
        · subst h3
          have hjk : ¬(k2 = j) := h2
          simp [setProp, getProp, hjk]
        · simp [setProp, getProp, h2, h3, ih]

theorem hasOwn_setProp (o : JSObj) (j k : String) (v : JSVal) :
    hasOwn (setProp o j v) k = (decide (j = k) || hasOwn o k) := by
  induction o with
  | nil => simp [setProp, hasOwn]
  | cons hd tl ih =>
      obtain ⟨k2, v2⟩ := hd
      by_cases h2 : k2 = j
      · subst h2
        by_cases h3 : k2 = k <;> simp [setProp, hasOwn, h3]
      · by_cases h3 : k2 = k
        · subst h3
          have hjk : j ≠ k2 := fun hh => h2 hh.symm
          simp [setProp, hasOwn, h2, hjk]
        · simp [setProp, hasOwn, h2, h3, ih]

theorem hasOwn_setProp_mono (o : JSObj) (j k : String) (v : JSVal)
    (h : hasOwn o k = true) : hasOwn (setProp o j v) k = true := by
  rw [hasOwn_setProp]
  simp [h]

theorem spreadInto_cons (a : JSObj) (hd : String × JSVal) (tl : JSObj) :
    spreadInto a (hd :: tl) = spreadInto (setProp a hd.1 hd.2) tl := by
  simp [spreadInto]

theorem hasOwn_spreadInto (b a : JSObj) (k : String) (h : hasOwn a k = true) :
    hasOwn (spreadInto a b) k = true := by
  induction b generalizing a with
  | nil => simpa [spreadInto] using h
  | cons hd tl ih =>
      rw [spreadInto_cons]
      exact ih _ (hasOwn_setProp_mono a hd.1 k hd.2 h)

theorem hasOwn_iff_mem (o : JSObj) (k : String) :
    hasOwn o k = true ↔ k ∈ o.map Prod.fst := by
  induction o with
  | nil => simp [hasOwn]
  | cons hd tl ih =>
      obtain ⟨k2, v2⟩ := hd
      by_cases h : k2 = k
      · simp [hasOwn, h]
      · have h5 : ¬(k = k2) := fun hh => h hh.symm
        simp [hasOwn, h, h5, ih]

theorem getInitialState_append (ps : List StatefulPart) (p : StatefulPart) :
    getInitialState (ps ++ [p]) =
      setProp (getInitialState ps) p.n (p.r .undefined emptyAction) := by
  simp [getInitialState, List.foldl_append]

theorem hasOwn_foldl_init (parts : List StatefulPart) (acc : JSObj) (k : String)
    (h : hasOwn acc k = true) :
    hasOwn (parts.foldl (fun acc2 p => setProp acc2 p.n (p.r .undefined emptyAction)) acc) k
      = true := by
  induction parts generalizing acc with
  | nil => simpa using h
  | cons hd tl ih =>
      simp only [List.foldl_cons]
      exact ih _ (hasOwn_setProp_mono acc hd.n k (hd.r .undefined emptyAction) h)

theorem hasOwn_getInitialState (parts : List StatefulPart) (p : StatefulPart)
    (h : p ∈ parts) : hasOwn (getInitialState parts) p.n = true := by
  have main : ∀ acc : JSObj,
      hasOwn (parts.foldl (fun acc2 q => setProp acc2 q.n (q.r .undefined emptyAction)) acc) p.n
        = true := by
    induction parts with
    | nil => cases h
    | cons hd tl ih =>
        intro acc
        rcases List.mem_cons.mp h with heq | htl
        · subst heq
          simp only [List.foldl_cons]
          exact hasOwn_foldl_init tl _ _ (by rw [hasOwn_setProp]; simp)
        · simp only [List.foldl_cons]
          exact ih htl _
  exact main []

theorem combineLoop_eq_of_defined (pairs : List (String × KeyReducer)) (st : JSObj)
    (a : JSAction) (h : ∀ p ∈ pairs, p.2 (getProp st p.1) a ≠ .undefined) :
    combineLoop pairs st a = .ok (loopNext pairs st a, loopChanged pairs st a) := by
  induction pairs with
  | nil => simp [combineLoop, loopNext, loopChanged]
  | cons hd tl ih =>
      obtain ⟨k, r⟩ := hd
      have hhd : r (getProp st k) a ≠ .undefined := h (k, r) (by simp)
      have htl : ∀ p ∈ tl, p.2 (getProp st p.1) a ≠ .undefined := fun p hp => h p (by simp [hp])
      simp [combineLoop, hhd, ih htl, loopNext, loopChanged]

theorem combineLoop_error_first (pre : List (String × KeyReducer)) (k : String)
    (r : KeyReducer) (post : List (String × KeyReducer)) (st : JSObj) (a : JSAction)
    (hpre : ∀ p ∈ pre, p.2 (getProp st p.1) a ≠ .undefined)
    (hk : r (getProp st k) a = .undefined) :
    combineLoop (pre ++ (k, r) :: post) st a = .error (.undefinedResult k a.type) := by
  induction pre with
  | nil => simp [combineLoop, hk]
  | cons hd tl ih =>
      obtain ⟨k2, r2⟩ := hd
      have hhd : r2 (getProp st k2) a ≠ .undefined := hpre (k2, r2) (by simp)
      have htl : ∀ p ∈ tl, p.2 (getProp st p.1) a ≠ .undefined := fun p hp => hpre p (by simp [hp])
      simp [combineLoop, hhd, ih htl]

theorem combineLoop_isErr_of_offender (pairs : List (String × KeyReducer)) (st : JSObj)
    (a : JSAction) (k : String) (r : KeyReducer) (hmem : (k, r) ∈ pairs)
    (hnu : r (getProp st k) a = .undefined) :
    isErrE (combineLoop pairs st a) = true := by
  induction pairs with
  | nil => cases hmem
  | cons hd tl ih =>
      obtain ⟨k2, r2⟩ := hd
      by_cases h2 : r2 (getProp st k2) a = .undefined
      · simp [combineLoop, h2, isErrE, isOkE]
      · rcases List.mem_cons.mp hmem with heq | htl
        · cases heq
          exact absurd hnu h2
        · have hrec := ih htl
          simp only [combineLoop, if_neg h2]
          cases hcl : combineLoop tl st a with
          | error e => simp [isErrE, isOkE]
          | ok pair =>
              rw [hcl] at hrec
              simp [isErrE, isOkE] at hrec

theorem message_undefined_contains_key (k : String) (t : Option String) :
    containsStr (JSError.message (.undefinedResult k t)) k := by
  refine ⟨"When called with an action of type " ++
      ((if truthyStr t then "\"" ++ (Option.getD t "" ++ "\"") else "(unknown type)") ++
        ", the part reducer for key \""),
    "\" returned undefined. " ++
      ("To ignore an action, you must explicitly return the previous state. " ++
        "If you want this reducer to hold no value, you can return null instead of undefined."),
    ?_⟩
  simp [JSError.message, String.append_assoc]

theorem message_undefined_contains_type (k : String) (t : String) :
    containsStr (JSError.message (.undefinedResult k (some t))) t := by
  by_cases h : t = ""
  · exact ⟨"", JSError.message (.undefinedResult k (some t)), by
      simp [h, String.empty_append]⟩
  · have htr : truthyStr (some t) = true := by simp [truthyStr, h]
    refine ⟨"When called with an action of type " ++ "\"",
      "\"" ++
        (", the part reducer for key \"" ++
          (k ++
            ("\" returned undefined. " ++
              ("To ignore an action, you must explicitly return the previous state. " ++
                "If you want this reducer to hold no value, you can return null instead of undefined.")))),
      ?_⟩
    simp only [JSError.message, htr, if_true, Option.getD_some, String.append_assoc]

theorem message_unregistered_contains_id (id : String) :
    containsStr (JSError.message (.unregisteredPart id)) id :=
  ⟨"Part with ID `",
    "` was not provided to the partitioner for inclusion in state. " ++
      "Please add it to the list of parts provided to `createPartitioner`.",
    rfl⟩

theorem message_invalid_contains_type (t : String) :
    containsStr (JSError.message (.invalidOtherReducer t)) t :=
  ⟨"`otherReducer` provided was expected to be a function or a map of reducers; received ",
    "", by simp [JSError.message, String.append_empty]⟩

theorem createReducer_ok_shape (config : CreateReducerConfig)
    (red : Option JSObj → JSAction → Except JSError JSObj)
    (h : createReducer config = .ok red) :
    red = partsOnlyReducer config.partMap config.parts ∨
      ∃ arg, config.otherReducer = some arg ∧ truthyArg arg = true ∧
        (isFnArg arg = true ∨ isReducersMap arg = true) ∧
        red = fullReducer config.partMap config.parts (additionalReducerOf arg) := by
  cases hc : config.otherReducer with
  | none =>
      have h2 := h
      simp only [createReducer, hc] at h2
      left
      exact (Except.ok.inj h2).symm
  | some arg =>
      have h2 := h
      simp only [createReducer, hc] at h2
      by_cases ht : truthyArg arg = true
      · rw [if_pos ht] at h2
        cases arg with
        | prim v => simp at h2
        | fn f =>
            right
            exact ⟨.fn f, rfl, ht, Or.inl rfl, (Except.ok.inj h2).symm⟩
        | rmap m =>
            right
            exact ⟨.rmap m, rfl, ht, Or.inr rfl, (Except.ok.inj h2).symm⟩
      · rw [if_neg ht] at h2
        left
        exact (Except.ok.inj h2).symm

theorem red_part_action (config : CreateReducerConfig)
    (red : Option JSObj → JSAction → Except JSError JSObj) (st : JSObj) (a : JSAction)
    (h : createReducer config = .ok red) (hp : isPartAction a = true) :
    red (some st) a = partsReducer config.partMap st a := by
  rcases createReducer_ok_shape config red h with hshape | ⟨arg, _, _, _, hshape⟩
  · subst hshape
    simp [partsOnlyReducer, hp]
  · subst hshape
    simp [fullReducer, hp]

theorem partsReducer_found (pm : PartMap) (st : JSObj) (a : JSAction) (id : String)
    (part : StatefulPart) (ha : a.«$$part» = some id) (hl : lookupPart pm id = some part) :
    partsReducer pm st a =
      (if is (getProp st part.o) (part.r (getProp st part.o) a) then .ok st
        else .ok (setProp st part.o (part.r (getProp st part.o) a))) := by
  simp [partsReducer, ha, hl]

theorem partsReducer_preserves (pm : PartMap) (st : JSObj) (a : JSAction) (ns : JSObj)
    (k : String) (h : partsReducer pm st a = .ok ns) (hk : hasOwn st k = true) :
    hasOwn ns k = true := by
  cases hpa : a.«$$part» with
  | none => simp [partsReducer, hpa] at h
  | some id =>
      cases hlook : lookupPart pm id with
      | none => simp [partsReducer, hpa, hlook] at h
      | some part =>
          rw [partsReducer_found pm st a id part hpa hlook] at h
          by_cases his : is (getProp st part.o) (part.r (getProp st part.o) a) = true
          · rw [if_pos his] at h
            rw [← Except.ok.inj h]
            exact hk
          · rw [if_neg his] at h
            rw [← Except.ok.inj h]
            exact hasOwn_setProp_mono st part.o k _ hk

/- Claim theorems. -/

/-- C1: For every reducers map, whenever a key retained in the effective
(function-valued) reducer set has its reducer return `undefined` on the
given state and action, the reducer returned by `combineOtherReducers`
throws (first conjunct); moreover the error thrown at the first such
offending key names that key in its message and includes the action's type
tag whenever the action has one (second conjunct; an empty type tag is
falsy in JS and then the message prints "(unknown type)", which still
contains the empty tag verbatim). -/
theorem C1_combined_reducer_undefined_throws (m : ReducersMap) (st : JSObj) (a : JSAction) :
    (∀ k r, (k, r) ∈ effectivePairs m → r (getProp st k) a = .undefined →
      isErrE (combineOtherReducers m (some st) a) = true) ∧
    (∀ pre k r post, effectivePairs m = pre ++ (k, r) :: post →
      (∀ p ∈ pre, p.2 (getProp st p.1) a ≠ .undefined) →
      r (getProp st k) a = .undefined →
      combineOtherReducers m (some st) a = .error (.undefinedResult k a.type) ∧
        containsStr (JSError.message (.undefinedResult k a.type)) k ∧
        ∀ t, a.type = some t →
          containsStr (JSError.message (.undefinedResult k a.type)) t) := by
  constructor
  · intro k r hmem hnu
    have herr := combineLoop_isErr_of_offender (effectivePairs m) st a k r hmem hnu
    simp only [combineOtherReducers, Option.getD_some]
    cases hcl : combineLoop (effectivePairs m) st a with
    | error e => simp [isErrE, isOkE]
    | ok pair =>
        rw [hcl] at herr
        simp [isErrE, isOkE] at herr
  · intro pre k r post hsplit hpre hnu
    have herr := combineLoop_error_first pre k r post st a hpre hnu
    refine ⟨?_, message_undefined_contains_key k a.type, ?_⟩
    · simp only [combineOtherReducers, Option.getD_some]
      rw [hsplit, herr]
    · intro t ht
      rw [ht]
      exact message_undefined_contains_type k t

/-- C1 witness: a one-key map whose reducer always returns `undefined`
makes the combined reducer throw, naming the key "a" and the type "noop". -/
theorem C1_witness :
    isErrE (combineOtherReducers [("a", .fn undefKeyRed)] (some []) noopAct) = true ∧
      combineOtherReducers [("a", .fn undefKeyRed)] (some []) noopAct =
          .error (.undefinedResult "a" (some "noop")) ∧
      containsStr (JSError.message (.undefinedResult "a" (some "noop"))) "a" ∧
      containsStr (JSError.message (.undefinedResult "a" (some "noop"))) "noop" := by
  have h := C1_combined_reducer_undefined_throws [("a", .fn undefKeyRed)] [] noopAct
  have h1 := h.1 "a" undefKeyRed (by simp [effectivePairs]) rfl
  have h2 := h.2 [] "a" undefKeyRed [] rfl (by simp) rfl
  exact ⟨h1, h2.1, h2.2.1, h2.2.2 "noop" rfl⟩

/-- C2: applying a reducer built by `createReducer` to a defined state and
a part-tagged action whose target identifier is absent from the part
registry throws a reference error naming that identifier (the call yields
an error, not a state: no state transition occurs). -/
theorem C2_unregistered_part_throws (config : CreateReducerConfig)
    (red : Option JSObj → JSAction → Except JSError JSObj) (st : JSObj) (a : JSAction)
    (id : String) (h : createReducer config = .ok red) (ha : a.«$$part» = some id)
    (hl : lookupPart config.partMap id = none) :
    red (some st) a = .error (.unregisteredPart id) ∧
      containsStr (JSError.message (.unregisteredPart id)) id := by
  have hp : isPartAction a = true := by simp [isPartAction, ha]
  rw [red_part_action config red st a h hp]
  refine ⟨?_, message_unregistered_contains_id id⟩
  simp [partsReducer, ha, hl, partIdString]

/-- C2 witness: with the empty registry, an action targeting "missing"
makes the built reducer throw, naming "missing". -/
theorem C2_witness :
    redEmpty (some []) { «$$part» := some "missing" } =
        .error (.unregisteredPart "missing") ∧
      containsStr (JSError.message (.unregisteredPart "missing")) "missing" :=
  C2_unregistered_part_throws cfgEmpty redEmpty [] { «$$part» := some "missing" }
    "missing" rfl rfl rfl

/-- C3: identity stability.  (1) The reducer returned by
`combineOtherReducers` returns its input state object itself when every
effective key's reducer returns its previous (defined) value.  (2) A reducer
built by `createReducer` returns its input state itself for a part action
whose registered part's reducer returns the previous owner-key value (per
the equality check `is`).  (3) It likewise returns the input state itself
for a non-part action when the other reducer (if any) leaves the full state
unchanged. -/
theorem C3_identity_stability :
    (∀ (m : ReducersMap) (st : JSObj) (a : JSAction),
      (∀ k r, (k, r) ∈ effectivePairs m →
        r (getProp st k) a = getProp st k ∧ getProp st k ≠ .undefined) →
      combineOtherReducers m (some st) a = .ok st) ∧
    (∀ (config : CreateReducerConfig)
        (red : Option JSObj → JSAction → Except JSError JSObj) (st : JSObj)
        (a : JSAction) (id : String) (part : StatefulPart),
      createReducer config = .ok red → a.«$$part» = some id →
      lookupPart config.partMap id = some part →
      part.r (getProp st part.o) a = getProp st part.o →
      red (some st) a = .ok st) ∧
    (∀ (config : CreateReducerConfig)
        (red : Option JSObj → JSAction → Except JSError JSObj) (st : JSObj)
        (a : JSAction),
      createReducer config = .ok red → isPartAction a = false →
      otherUnchanged config st a →
      red (some st) a = .ok st) := by
  refine ⟨?_, ?_, ?_⟩
  · intro m st a h
    have hnd : ∀ p ∈ effectivePairs m, p.2 (getProp st p.1) a ≠ .undefined := by
      intro p hp
      obtain ⟨heq, hne⟩ := h p.1 p.2 (by simpa using hp)
      rw [heq]
      exact hne
    have hloop := combineLoop_eq_of_defined (effectivePairs m) st a hnd
    have hchb : loopChanged (effectivePairs m) st a = false := by
      rw [loopChanged, List.any_eq_false]
      intro p hp
      have heq := (h p.1 p.2 (by simpa using hp)).1
      simp [is, heq]
    simp only [combineOtherReducers, Option.getD_some]
    rw [hloop]
    simp [hchb]
  · intro config red st a id part h ha hl hr
    have hp : isPartAction a = true := by simp [isPartAction, ha]
    rw [red_part_action config red st a h hp]
    rw [partsReducer_found config.partMap st a id part ha hl]
    simp [is, hr]
  · intro config red st a h hp hother
    rcases createReducer_ok_shape config red h with hshape | ⟨arg, hc, ht, hkind, hshape⟩
    · subst hshape
      simp [partsOnlyReducer, hp]
    · subst hshape
      cases arg with
      | fn f =>
          simp only [otherUnchanged, hc] at hother
          simp [fullReducer, hp, additionalReducerOf, hother, isO]
      | rmap m =>
          simp only [otherUnchanged, hc] at hother
          simp [fullReducer, hp, additionalReducerOf, hother, isO]
      | prim v =>
          rcases hkind with hfn | hmap
          · simp [isFnArg] at hfn
          · simp [isReducersMap] at hmap

/-- C3 witness: an echoing reducers map leaves the state object intact; an
echoing part under a part action leaves the state object intact; a non-part
action with no other reducer leaves the state object intact. -/
theorem C3_witness :
    combineOtherReducers [("a", .fn echoKeyRed)] (some [("a", .num 1)]) noopAct =
        .ok [("a", .num 1)] ∧
      redEcho (some [("e", .num 7)]) { «$$part» := some "e" } = .ok [("e", .num 7)] ∧
      redEmpty (some []) noopAct = .ok [] := by
  refine ⟨C3_identity_stability.1 [("a", .fn echoKeyRed)] [("a", .num 1)] noopAct ?_,
    C3_identity_stability.2.1 cfgEcho redEcho [("e", .num 7)]
      { «$$part» := some "e" } "e" echoPart rfl rfl rfl rfl,
    C3_identity_stability.2.2 cfgEmpty redEmpty [] noopAct rfl rfl trivial⟩
  intro k r hmem
  simp only [effectivePairs, List.filterMap] at hmem
  simp at hmem
  obtain ⟨hk, hr⟩ := hmem
  subst hk
  subst hr
  exact ⟨rfl, by decide⟩

/-- C4: single-key replacement.  For a part action targeting a registered
part whose reducer changes the owner-key value (per the equality check),
the built reducer returns the previous state with exactly that one owner
key replaced: the owner key holds the new value, every other key's value is
the previous state's value itself, and the result is a new object. -/
theorem C4_single_key_replacement (config : CreateReducerConfig)
    (red : Option JSObj → JSAction → Except JSError JSObj) (st : JSObj) (a : JSAction)
    (id : String) (part : StatefulPart) (h : createReducer config = .ok red)
    (ha : a.«$$part» = some id) (hl : lookupPart config.partMap id = some part)
    (hne : part.r (getProp st part.o) a ≠ getProp st part.o) :
    red (some st) a = .ok (setProp st part.o (part.r (getProp st part.o) a)) ∧
      getProp (setProp st part.o (part.r (getProp st part.o) a)) part.o =
        part.r (getProp st part.o) a ∧
      (∀ k, k ≠ part.o →
        getProp (setProp st part.o (part.r (getProp st part.o) a)) k = getProp st k) ∧
      setProp st part.o (part.r (getProp st part.o) a) ≠ st := by
  have hp : isPartAction a = true := by simp [isPartAction, ha]
  have hisF : is (getProp st part.o) (part.r (getProp st part.o) a) = false := by
    simp only [is, decide_eq_false_iff_not]
    exact fun hh => hne hh.symm
  refine ⟨?_, getProp_setProp_self st part.o _,
    fun k hk => getProp_setProp_ne st part.o k _ (fun hh => hk hh.symm), ?_⟩
  · rw [red_part_action config red st a h hp]
    rw [partsReducer_found config.partMap st a id part ha hl]
    simp [hisF]
  · intro heq
    have hcongr := congrArg (fun o => getProp o part.o) heq
    simp only [getProp_setProp_self] at hcongr
    exact hne hcongr

/-- C4 witness: dispatching the counter part action on state 0 yields a new
object with the counter key replaced by 1. -/
theorem C4_witness :
    redCounter (some [("counter", .num 0)]) counterAct =
        .ok (setProp [("counter", .num 0)] counterPart.o
          (counterPart.r (getProp [("counter", .num 0)] counterPart.o) counterAct)) ∧
      setProp [("counter", .num 0)] counterPart.o
          (counterPart.r (getProp [("counter", .num 0)] counterPart.o) counterAct) ≠
        [("counter", .num 0)] := by
  have h := C4_single_key_replacement cfgCounter redCounter [("counter", .num 0)]
    counterAct "counter" counterPart rfl rfl rfl (by decide)
  exact ⟨h.1, h.2.2.2⟩

/-- C5 counterexample: with the counter part and no other reducer, the
initialization call is not action-independent: the input state defaults to
the freshly computed initial state and a part action is then still
dispatched through the registry, so reducing `undefined` with the counter
part action yields counter 1 while any non-part action yields counter 0. -/
theorem C5_counterexample :
    runReducer cfgCounter none counterAct = .ok [("counter", .num 1)] ∧
      runReducer cfgCounter none noopAct = .ok [("counter", .num 0)] ∧
      ([("counter", JSVal.num 1)] : JSObj) ≠ [("counter", JSVal.num 0)] :=
  ⟨rfl, rfl, by decide⟩

/-- C5 (amended): initialization is action-independent in this restricted
form: with no other reducer, `reducer(undefined, a1) = reducer(undefined,
a2)` whenever neither action is a part action (a part action received at
initialization is additionally dispatched through the part registry on the
freshly built initial state); with a function or reducers-map other
reducer, equality holds whenever the other reducer's initialization output
on the two actions agrees. -/
theorem C5_initialization_idempotence_amended :
    (∀ (pm : PartMap) (parts : List StatefulPart)
        (red : Option JSObj → JSAction → Except JSError JSObj) (a1 a2 : JSAction),
      createReducer { otherReducer := none, partMap := pm, parts := parts } = .ok red →
      isPartAction a1 = false → isPartAction a2 = false →
      red none a1 = red none a2) ∧
    (∀ (config : CreateReducerConfig) (arg : OtherReducerArg)
        (red : Option JSObj → JSAction → Except JSError JSObj) (a1 a2 : JSAction),
      config.otherReducer = some arg →
      (isFnArg arg = true ∨ isReducersMap arg = true) →
      createReducer config = .ok red →
      additionalReducerOf arg none a1 = additionalReducerOf arg none a2 →
      red none a1 = red none a2) := by
  constructor
  · intro pm parts red a1 a2 h h1 h2
    rcases createReducer_ok_shape _ red h with hshape | ⟨arg, hc, _, _, _⟩
    · subst hshape
      simp [partsOnlyReducer, h1, h2]
    · simp at hc
  · intro config arg red a1 a2 hc hkind h hadd
    have h2 := h
    simp only [createReducer, hc] at h2
    have ht : truthyArg arg = true := by
      rcases hkind with hfn | hmap
      · cases arg <;> simp_all [isFnArg, truthyArg]
      · cases arg <;> simp_all [isReducersMap, truthyArg]
    rw [if_pos ht] at h2
    cases arg with
    | prim v =>
        rcases hkind with hfn | hmap
        · simp [isFnArg] at hfn
        · simp [isReducersMap] at hmap
    | fn f =>
        have hred := (Except.ok.inj h2).symm
        subst hred
        simp only [fullReducer]
        rw [hadd]
    | rmap m =>
        have hred := (Except.ok.inj h2).symm
        subst hred
        simp only [fullReducer]
        rw [hadd]

/-- C5 witness: with no parts and no other reducer, two distinct non-part
actions initialize identically; with the constant-function other reducer,
two actions on which it agrees initialize identically. -/
theorem C5_witness :
    redEmpty none noopAct = redEmpty none emptyAction ∧
      redFn none noopAct = redFn none emptyAction :=
  ⟨C5_initialization_idempotence_amended.1 [] [] redEmpty noopAct emptyAction rfl rfl rfl,
    C5_initialization_idempotence_amended.2 cfgFn (.fn constOtherFn) redFn noopAct
      emptyAction rfl (Or.inl rfl) rfl rfl⟩

/-- C6 counterexample: a part whose name key "a" and owner key "b" differ:
`getInitialState` assigns the initial value under the NAME key `n` (the
source indexes `initialState` by `part.n`), not under the part's owner key
`o` as the claim states — the owner key "b" is absent from the result. -/
theorem C6_counterexample :
    hasOwn (getInitialState [partAB]) "b" = false ∧
      hasOwn (getInitialState [partAB]) "a" = true ∧
      getProp (getInitialState [partAB]) "a" = .num 0 := by
  decide

/-- C6 (amended): `getInitialState` assigns, for each part, the single
result of invoking the part's reducer with `(undefined, the empty action)`
under that part's NAME key `n` (not its owner key `o`), iterating in list
order so that on a name collision the value of the last part in the list
wins; a key named by no part is absent. -/
theorem C6_initial_state_amended (parts : List StatefulPart) (k : String) :
    (∀ p, lastPartNamed parts k = some p →
      hasOwn (getInitialState parts) k = true ∧
        getProp (getInitialState parts) k = p.r .undefined emptyAction) ∧
    (lastPartNamed parts k = none → hasOwn (getInitialState parts) k = false) := by
  induction parts using List.reverseRecOn with
  | nil =>
      constructor
      · intro p hp
        simp [lastPartNamed] at hp
      · intro _
        simp [getInitialState, hasOwn]
  | append_singleton ps p ih =>
      have hgi := getInitialState_append ps p
      by_cases hp : p.n = k
      · have hl : lastPartNamed (ps ++ [p]) k = some p := by
          simp [lastPartNamed, List.filter_append, List.filter, hp]
        constructor
        · intro q hq
          rw [hl] at hq
          obtain rfl : p = q := by injection hq
          rw [hgi]
          subst hp
          exact ⟨by rw [hasOwn_setProp]; simp, getProp_setProp_self _ _ _⟩
        · intro hq
          rw [hl] at hq
          cases hq
      · have hl : lastPartNamed (ps ++ [p]) k = lastPartNamed ps k := by
          simp [lastPartNamed, List.filter_append, List.filter, hp]
        constructor
        · intro q hq
          rw [hl] at hq
          have hq2 := ih.1 q hq
          rw [hgi]
          exact ⟨hasOwn_setProp_mono _ _ _ _ hq2.1,
            by rw [getProp_setProp_ne _ _ _ _ hp]; exact hq2.2⟩
        · intro hq
          rw [hl] at hq
          have hq2 := ih.2 hq
          rw [hgi, hasOwn_setProp]
          simp [hp, hq2]

/-- C6 witness: for the name/owner-splitting part, the name key "a" holds
the single-invocation result and an unrelated key "q" is absent. -/
theorem C6_witness :
    (hasOwn (getInitialState [partAB]) "a" = true ∧
      getProp (getInitialState [partAB]) "a" = partAB.r .undefined emptyAction) ∧
      hasOwn (getInitialState [partAB]) "q" = false :=
  ⟨(C6_initial_state_amended [partAB] "a").1 partAB rfl,
    (C6_initial_state_amended [partAB] "q").2 rfl⟩

/-- C7 counterexample: for a part whose name key "a" and owner key "b"
differ, the initialization call leaves the owner key "b" absent from the
composite state (initial values are stored under the name key), refuting
"after the initialization call every part's owner key is present". -/
theorem C7_counterexample :
    runReducer cfgAB none noopAct = .ok [("a", .num 0)] ∧
      hasOwn [("a", JSVal.num 0)] "b" = false :=
  ⟨rfl, by decide⟩

/-- C7 (amended): after the initialization call every part's NAME key `n`
(not in general its owner key `o`) is present in the resulting composite
state, and every successful transition from a defined state preserves the
presence of every key of the input state (keys never disappear). -/
theorem C7_key_invariant_amended :
    (∀ (config : CreateReducerConfig)
        (red : Option JSObj → JSAction → Except JSError JSObj) (a : JSAction) (ns : JSObj),
      createReducer config = .ok red → red none a = .ok ns →
      ∀ p ∈ config.parts, hasOwn ns p.n = true) ∧
    (∀ (config : CreateReducerConfig)
        (red : Option JSObj → JSAction → Except JSError JSObj) (st : JSObj) (a : JSAction)
        (ns : JSObj),
      createReducer config = .ok red → red (some st) a = .ok ns →
      ∀ k, hasOwn st k = true → hasOwn ns k = true) := by
  constructor
  · intro config red a ns h hred p hp
    rcases createReducer_ok_shape config red h with hshape | ⟨arg, hc, ht, hkind, hshape⟩
    · subst hshape
      simp only [partsOnlyReducer, Option.getD_none] at hred
      by_cases hpa : isPartAction a = true
      · rw [if_pos hpa] at hred
        exact partsReducer_preserves _ _ _ _ _ hred (hasOwn_getInitialState _ p hp)
      · rw [if_neg hpa] at hred
        rw [← Except.ok.inj hred]
        exact hasOwn_getInitialState _ p hp
    · subst hshape
      simp only [fullReducer] at hred
      cases hadd : additionalReducerOf arg none a with
      | error e =>
          rw [hadd] at hred
          simp at hred
      | ok other =>
          rw [hadd] at hred
          rw [← Except.ok.inj hred]
          exact hasOwn_spreadInto other _ p.n (hasOwn_getInitialState _ p hp)
  · intro config red st a ns h hred k hk
    rcases createReducer_ok_shape config red h with hshape | ⟨arg, hc, ht, hkind, hshape⟩
    · subst hshape
      simp only [partsOnlyReducer, Option.getD_some] at hred
      by_cases hpa : isPartAction a = true
      · rw [if_pos hpa] at hred
        exact partsReducer_preserves _ _ _ _ _ hred hk
      · rw [if_neg hpa] at hred
        rw [← Except.ok.inj hred]
        exact hk
    · subst hshape
      simp only [fullReducer] at hred
      by_cases hpa : isPartAction a = true
      · rw [if_pos hpa] at hred
        exact partsReducer_preserves _ _ _ _ _ hred hk
      · rw [if_neg hpa] at hred
        cases hadd : additionalReducerOf arg (some st) a with
        | error e =>
            rw [hadd] at hred
            simp at hred
        | ok no =>
            rw [hadd] at hred
            rw [← Except.ok.inj hred]
            by_cases hiso : isO st no = true
            · rw [if_pos hiso]
              exact hk
            · rw [if_neg hiso]
              exact hasOwn_spreadInto no st k hk

/-- C7 witness: the counter part's name key is present after
initialization, and the counter key survives a counter-part transition. -/
theorem C7_witness :
    hasOwn [("counter", JSVal.num 0)] counterPart.n = true ∧
      hasOwn [("counter", JSVal.num 1)] "counter" = true :=
  ⟨C7_key_invariant_amended.1 cfgCounter redCounter noopAct [("counter", .num 0)] rfl rfl
      counterPart (by simp [cfgCounter]),
    C7_key_invariant_amended.2 cfgCounter redCounter [("counter", .num 0)] counterAct
      [("counter", .num 1)] rfl rfl "counter" (by decide)⟩

/-- C8 counterexample: `false` supplied as the `otherReducer` argument is
neither a function nor a reducers map, yet `createReducer` does not throw:
a falsy argument takes the parts-only branch and a reducer IS returned,
refuting "createReducer throws ...; no reducer is returned". -/
theorem C8_counterexample :
    isOkE (createReducer
      { otherReducer := some (.prim (.bool false)), partMap := [], parts := [] }) = true :=
  rfl

/-- C8 (amended): a TRUTHY `otherReducer` argument that is neither a
function nor a reducers map makes `createReducer` throw a reference-style
error whose message includes the received value's `typeof` name; a falsy
such argument (undefined, null, false, 0, empty string) is instead treated
as absent and the parts-only reducer is returned. -/
theorem C8_invalid_other_reducer_amended (v : JSVal) (pm : PartMap)
    (parts : List StatefulPart) :
    (truthy v = true →
      createReducer { otherReducer := some (.prim v), partMap := pm, parts := parts } =
          .error (.invalidOtherReducer (typeofName v)) ∧
        containsStr (JSError.message (.invalidOtherReducer (typeofName v))) (typeofName v)) ∧
    (truthy v = false →
      createReducer { otherReducer := some (.prim v), partMap := pm, parts := parts } =
        .ok (partsOnlyReducer pm parts)) := by
  constructor
  · intro ht
    refine ⟨?_, message_invalid_contains_type (typeofName v)⟩
    simp [createReducer, truthyArg, ht]
  · intro ht
    simp [createReducer, truthyArg, ht]

/-- C8 witness: the truthy non-function value 5 makes construction throw
naming "number"; the falsy value null yields the parts-only reducer. -/
theorem C8_witness :
    (createReducer { otherReducer := some (.prim (.num 5)), partMap := [], parts := [] } =
        .error (.invalidOtherReducer (typeofName (.num 5))) ∧
      containsStr (JSError.message (.invalidOtherReducer (typeofName (.num 5))))
        (typeofName (.num 5))) ∧
      createReducer { otherReducer := some (.prim .null), partMap := [], parts := [] } =
        .ok (partsOnlyReducer [] []) :=
  ⟨(C8_invalid_other_reducer_amended (.num 5) [] []).1 rfl,
    (C8_invalid_other_reducer_amended .null [] []).2 rfl⟩

/-- C9: determinism of replay.  The built reducer and the replay fold are
pure functions of the configuration, the initial state and the ordered
action sequence (the embedding threads all state explicitly and the source
closes only over construction-time immutable data), so two replays of equal
action sequences from equal initial states agree exactly. -/
theorem C9_determinism (config : CreateReducerConfig) (s1 s2 : Option JSObj)
    (as1 as2 : List JSAction) (hs : s1 = s2) (hseq : as1 = as2) :
    replayCfg config s1 as1 = replayCfg config s2 as2 := by
  subst hs
  subst hseq
  rfl

/-- C9 witness: replaying the two-action counter sequence twice from the
undefined state gives the same result. -/
theorem C9_witness :
    replayCfg cfgCounter none [counterAct, noopAct] =
      replayCfg cfgCounter none [counterAct, noopAct] :=
  C9_determinism cfgCounter none none [counterAct, noopAct] [counterAct, noopAct] rfl rfl

/-- C10: when the combined reducer completes normally and detected a change
at some managed key, its result object carries exactly the effective
(function-valued) key set: a key holds in the result iff it is an effective
key, and in particular every input-state key with no corresponding reducer
function in the map is absent from the result. -/
theorem C10_combined_result_exact_keys (m : ReducersMap) (st : JSObj) (a : JSAction)
    (hnd : ∀ p ∈ effectivePairs m, p.2 (getProp st p.1) a ≠ .undefined)
    (hch : ∃ p ∈ effectivePairs m, p.2 (getProp st p.1) a ≠ getProp st p.1) :
    combineOtherReducers m (some st) a = .ok (nextObjOf m st a) ∧
      (∀ k, hasOwn (nextObjOf m st a) k = true ↔ k ∈ effectiveKeys m) ∧
      (∀ k, hasOwn st k = true → k ∉ effectiveKeys m →
        hasOwn (nextObjOf m st a) k = false) := by
  have hloop := combineLoop_eq_of_defined (effectivePairs m) st a hnd
  have hchb : loopChanged (effectivePairs m) st a = true := by
    rw [loopChanged, List.any_eq_true]
    rcases hch with ⟨p, hp, hne⟩
    refine ⟨p, hp, ?_⟩
    have hne2 : getProp st p.1 ≠ p.2 (getProp st p.1) a := fun hh => hne hh.symm
    simp [is, hne2]
  have hiff : ∀ k, hasOwn (nextObjOf m st a) k = true ↔ k ∈ effectiveKeys m := by
    intro k
    rw [hasOwn_iff_mem]
    simp [nextObjOf, loopNext, effectiveKeys]
  refine ⟨?_, hiff, ?_⟩
  · simp only [combineOtherReducers, Option.getD_some]
    rw [hloop]
    simp [hchb, nextObjOf]
  · intro k hst hnot
    cases hOwn : hasOwn (nextObjOf m st a) k with
    | false => rfl
    | true => exact absurd ((hiff k).mp hOwn) hnot

/-- C10 witness: a map managing only "flip" applied to a state holding only
"x" produces, once "flip" changes, a result containing "flip" and dropping
the unmanaged key "x". -/
theorem C10_witness :
    combineOtherReducers [("flip", .fn constKeyRed)] (some [("x", .num 1)]) noopAct =
        .ok (nextObjOf [("flip", .fn constKeyRed)] [("x", .num 1)] noopAct) ∧
      hasOwn (nextObjOf [("flip", .fn constKeyRed)] [("x", .num 1)] noopAct) "x" = false := by
  have h := C10_combined_result_exact_keys [("flip", .fn constKeyRed)] [("x", .num 1)]
    noopAct (by decide) (by decide)
  exact ⟨h.1, h.2.2 "x" (by decide) (by decide)⟩
